import Mathlib

set_option maxRecDepth 4000

/-!
Verification development for the navy-dashboard query/export layer.

The definitions below are a shallow embedding of the two dashboard scripts
(`Navy_Dashboard1.py`, `Navy_Dashboard.py`): the query builder, the streaming
CSV exporter with its batch buffer, the row-by-row export loop of the older
script, and the validation block of the main processing path.  The CSV
formatting follows the Python `csv` module (excel dialect, minimal quoting,
CRLF line terminator, doubled quote characters, and the writer's rule that a
record consisting of a single empty field is written as a pair of quote
characters).  A CSV reader is embedded as well, as a character-level state
machine, to state the export round-trip property.
-/

/-! ### CSV writer (Python csv module, excel dialect, QUOTE_MINIMAL) -/

def isSpecialChar (c : Char) : Bool :=
  c == ',' || c == '\"' || c == '\r' || c == '\n'

def needsQuoteL (cs : List Char) : Bool := cs.any isSpecialChar

def escapeL : List Char → List Char
  | [] => []
  | c :: cs => if c == '\"' then '\"' :: '\"' :: escapeL cs else c :: escapeL cs

def quoteFieldL (cs : List Char) : List Char :=
  if needsQuoteL cs then '\"' :: (escapeL cs ++ ['\"']) else cs

def rowCoreL : List (List Char) → List Char
  | [] => []
  | f :: fs =>
      match fs with
      | [] => quoteFieldL f
      | _ :: _ => quoteFieldL f ++ ',' :: rowCoreL fs

def formatRowL (cells : List (List Char)) : List Char :=
  if cells = [[]] then ['\"', '\"', '\r', '\n'] else rowCoreL cells ++ ['\r', '\n']

def formatRow (cells : List String) : String :=
  ⟨formatRowL (cells.map String.data)⟩

def joinStr : List String → String
  | [] => ""
  | s :: rest => s ++ joinStr rest

/-! ### Documents (store records) -/

inductive Value where
  | str (s : String)
  | intV (n : Int)
  | objectId (hex : String)
deriving DecidableEq, Repr

/-- `str(value)` in Python: a string renders as itself, an integer via its
decimal form, and a store-native ObjectId as its hex string. -/
def Value.pyStr : Value → String
  | .str s => s
  | .intV n => toString n
  | .objectId h => h

abbrev Doc := List (String × Value)

def Doc.keys (d : Doc) : List String := d.map Prod.fst

def Doc.get? (d : Doc) (k : String) : Option Value :=
  match d with
  | [] => none
  | (k', v) :: rest => if k' == k then some v else Doc.get? rest k

/-- The cell a `DictWriter` emits for key `k` of row `d`:
`rowdict.get(k, restval)` with `restval = ''`, rendered by `str`. -/
def Doc.cell (d : Doc) (k : String) : String :=
  match d.get? k with
  | some v => v.pyStr
  | none => ""

/-- `doc["_id"] = str(doc["_id"])`: replace the value stored under `_id`
by its string form, leaving every other entry unchanged. -/
def stringifyId (d : Doc) : Doc :=
  d.map (fun p => if p.1 == "_id" then (p.1, Value.str p.2.pyStr) else p)

def keysSub (a b : List String) : Bool := a.all (fun k => b.contains k)

/-- `DictWriter` raises `ValueError` when a row has keys outside the header. -/
def hasExtra (header : List String) (d : Doc) : Bool := !(keysSub d.keys header)

/-- The CSV text of one data row of `d` under `header`. -/
def rowOf (header : List String) (d : Doc) : String :=
  formatRow (header.map (Doc.cell d))

/-! ### Streaming exporter (`stream_data_to_csv` of `Navy_Dashboard1.py`) -/

structure ExportState where
  buffer : String
  headers : Option (List String)
  batch : List Doc
  count : Nat
deriving Repr

/-- `writer.writerows(batch)`: write rows one at a time; a row with keys
outside the header raises `ValueError` (default `extrasaction`). -/
def writerows (header : List String) (buf : String) : List Doc → Except String String
  | [] => .ok buf
  | d :: ds =>
      if hasExtra header d then .error "ValueError: dict contains fields not in fieldnames"
      else writerows header (buf ++ rowOf header d) ds

def batchLimit : Nat := 1000

/-- One iteration of the `for doc in cursor` loop body: stringify `_id`
(raising `KeyError` when absent), derive and write the header on the first
record, append to the batch, and flush the batch once it reaches 1000 rows. -/
def procDoc (st : ExportState) (d : Doc) : Except String ExportState :=
  if d.keys.contains "_id" then
    let d' := stringifyId d
    let hb : List String × String :=
      match st.headers with
      | some h => (h, st.buffer)
      | none => (Doc.keys d', st.buffer ++ formatRow (Doc.keys d'))
    let batch' := st.batch ++ [d']
    if batch'.length ≥ batchLimit then
      match writerows hb.1 hb.2 batch' with
      | .error e => .error e
      | .ok buf' => .ok ⟨buf', some hb.1, [], st.count + 1⟩
    else .ok ⟨hb.2, some hb.1, batch', st.count + 1⟩
  else .error "KeyError: _id"

/-- The cursor drain: each cursor step either yields a document or raises a
store-level error, which propagates out of the loop. -/
def streamLoop (st : ExportState) : List (Except String Doc) → Except String ExportState
  | [] => .ok st
  | .error e :: _ => .error e
  | .ok d :: rest =>
      match procDoc st d with
      | .error e => .error e
      | .ok st' => streamLoop st' rest

/-- What `stream_data_to_csv` hands back, together with the two observable
side effects: whether `st.error` was displayed (the `except` branch ran) and
whether `cursor.close()` executed. -/
structure StreamResult where
  payload : String
  count : Nat
  errorShown : Bool
  cursorClosed : Bool
deriving DecidableEq, Repr

/-- Everything after the loop: flush the remaining batch (`if batch and
writer`), close the cursor, return `(buffer.getvalue(), count)`; any exception
lands in the `except` branch, which shows the error and returns `("", 0)`
without closing the cursor. -/
def finalizeStream : Except String ExportState → StreamResult
  | .error _ => ⟨"", 0, true, false⟩
  | .ok st =>
      let fin : Except String String :=
        match st.headers with
        | some h => writerows h st.buffer st.batch
        | none => .ok st.buffer
      match fin with
      | .error _ => ⟨"", 0, true, false⟩
      | .ok buf => ⟨buf, st.count, false, true⟩

/-- `stream_data_to_csv` over a cursor modelled as the list of its iteration
outcomes. -/
def stream_data_to_csv (cursor : List (Except String Doc)) : StreamResult :=
  finalizeStream (streamLoop ⟨"", none, [], 0⟩ cursor)

/-- The rendering in `main`: `count > 0` offers the download and the success
banner, otherwise the "No data found" warning. -/
inductive RenderOutcome where
  | downloadOffered (n : Nat)
  | noDataWarning
deriving DecidableEq, Repr

def renderMain (count : Nat) : RenderOutcome :=
  if count > 0 then .downloadOffered count else .noDataWarning

/-! ### Row-by-row export loop (`Navy_Dashboard.py`, fetch branch) -/

/-- The `for doc in documents` loop of the older script: stringify `_id`,
then `writer.writerow(doc)`. -/
def fetchRowsLoop (header : List String) (buf : String) : List Doc → Except String String
  | [] => .ok buf
  | d :: ds =>
      if d.keys.contains "_id" then
        let d' := stringifyId d
        if hasExtra header d' then .error "ValueError: dict contains fields not in fieldnames"
        else fetchRowsLoop header (buf ++ rowOf header d') ds
      else .error "KeyError: _id"

/-- The fetch-branch export of `Navy_Dashboard.py`: nothing is written when
there are no documents; otherwise the header comes from `documents[0]` and
rows are written one by one. -/
def fetch_export_csv : List Doc → Option (Except String String)
  | [] => none
  | d0 :: rest => some (fetchRowsLoop (Doc.keys d0) (formatRow (Doc.keys d0)) (d0 :: rest))

/-! ### Dates, times and the query builder -/

def pad2 (n : Nat) : String := if n < 10 then "0" ++ toString n else toString n

def pad4 (n : Nat) : String :=
  if n < 10 then "000" ++ toString n
  else if n < 100 then "00" ++ toString n
  else if n < 1000 then "0" ++ toString n
  else toString n

structure PyDate where
  year : Nat
  month : Nat
  day : Nat
deriving DecidableEq, Repr

structure PyTime where
  hour : Nat
  minute : Nat
  second : Nat
deriving DecidableEq, Repr

structure PyDateTime where
  year : Nat
  month : Nat
  day : Nat
  hour : Nat
  minute : Nat
  second : Nat
deriving DecidableEq, Repr

/-- `datetime.combine(date, time)`. -/
def datetimeCombine (d : PyDate) (t : PyTime) : PyDateTime :=
  ⟨d.year, d.month, d.day, t.hour, t.minute, t.second⟩

/-- `datetime.isoformat()` with zero microseconds: `YYYY-MM-DDTHH:MM:SS`. -/
def PyDateTime.isoformat (t : PyDateTime) : String :=
  pad4 t.year ++ "-" ++ pad2 t.month ++ "-" ++ pad2 t.day ++ "T" ++
    pad2 t.hour ++ ":" ++ pad2 t.minute ++ ":" ++ pad2 t.second

/-- Strict lexicographic order on equal-length numeric tuples, the order
Python uses to compare dates and datetimes field by field. -/
def natListLtb : List Nat → List Nat → Bool
  | [], [] => false
  | [], _ :: _ => true
  | _ :: _, [] => false
  | a :: as, b :: bs => decide (a < b) || (a == b && natListLtb as bs)

def PyDate.ltb (a b : PyDate) : Bool :=
  natListLtb [a.year, a.month, a.day] [b.year, b.month, b.day]

def PyDateTime.sixtuple (t : PyDateTime) : List Nat :=
  [t.year, t.month, t.day, t.hour, t.minute, t.second]

def PyDateTime.ltb (a b : PyDateTime) : Bool :=
  natListLtb a.sixtuple b.sixtuple

/-- The shape of the dict `build_optimized_query` returns: a `$gte`/`$lte`
pair on `timestamp`, plus, in check mode, a `$gte`/`$lte` band on
`Genset_Run_SS`. -/
structure RangeQuery where
  tsGte : String
  tsLte : String
  statusBand : Option (Int × Int)
deriving DecidableEq, Repr

def build_optimized_query (start_datetime end_datetime : PyDateTime)
    (is_check : Bool) : RangeQuery :=
  { tsGte := start_datetime.isoformat
    tsLte := end_datetime.isoformat
    statusBand := if is_check then some (0, 2) else none }

/-! ### Store matching semantics for range queries -/

def charListLtb : List Char → List Char → Bool
  | [], [] => false
  | [], _ :: _ => true
  | _ :: _, [] => false
  | a :: as, b :: bs => decide (a < b) || (a == b && charListLtb as bs)

/-- Lexicographic string comparison, `a ≤ b` as the negation of `b < a`. -/
def strLeb (a b : String) : Bool := !(charListLtb b.data a.data)

/-- Modelled from the spec: the document-store range-predicate contract of §6
applied to the `timestamp` bounds — a record matches when its `timestamp`
field is a string lying between the two bounds, inclusively at both ends. -/
def tsMatches (q : RangeQuery) (d : Doc) : Bool :=
  match Doc.get? d "timestamp" with
  | some (.str t) => strLeb q.tsGte t && strLeb t q.tsLte
  | _ => false

/-- Modelled from the spec: the document-store range-predicate contract of §6
applied to the optional `Genset_Run_SS` band — with no band every record
matches; with a band, a record matches when it carries an integer status
inside the inclusive band. -/
def statusMatches (q : RangeQuery) (d : Doc) : Bool :=
  match q.statusBand with
  | none => true
  | some (lo, hi) =>
      match Doc.get? d "Genset_Run_SS" with
      | some (.intV v) => decide (lo ≤ v) && decide (v ≤ hi)
      | _ => false

def matchesQuery (q : RangeQuery) (d : Doc) : Bool :=
  tsMatches q d && statusMatches q d

/-! ### The main processing block of `Navy_Dashboard1.py` -/

inductive UIEvent where
  | showValidationError (msg : String)
  | connectStore
  | buildQuery (q : RangeQuery)
  | runExport (q : RangeQuery)
deriving DecidableEq, Repr

structure UIInput where
  start_date : PyDate
  start_time : PyTime
  end_date : PyDate
  end_time : PyTime
deriving DecidableEq, Repr

/-- The guarded sequence `main` performs after a button press: the date
check, the combined datetime check, and only then connection, query build and
export.  `start_datetime >= end_datetime` is the negation of the strict
comparison under Python's total order on datetimes. -/
def main_process (inp : UIInput) (is_check : Bool) : List UIEvent :=
  if PyDate.ltb inp.end_date inp.start_date then
    [.showValidationError "End Date must be greater than or equal to Start Date."]
  else
    let start_datetime := datetimeCombine inp.start_date inp.start_time
    let end_datetime := datetimeCombine inp.end_date inp.end_time
    if PyDateTime.ltb start_datetime end_datetime = false then
      [.showValidationError "End Date-Time must be greater than Start Date-Time."]
    else
      let q := build_optimized_query start_datetime end_datetime is_check
      [.connectStore, .buildQuery q, .runExport q]

/-! ### CSV reader (character-level state machine, excel dialect) -/

inductive CsvMode where
  | startRecord
  | startField
  | inField
  | inQuoted
  | quoteEnd
  | afterCR
deriving DecidableEq, Repr

structure PState where
  field : List Char
  row : List (List Char)
  rows : List (List (List Char))
  mode : CsvMode
deriving Repr

def startFieldStep (st : PState) (c : Char) : PState :=
  if c == '\"' then { st with mode := .inQuoted }
  else if c == ',' then { st with field := [], row := st.row ++ [st.field], mode := .startField }
  else { st with field := st.field ++ [c], mode := .inField }

def recordStartStep (st : PState) (c : Char) : PState :=
  if c == '\r' then ⟨[], [], st.rows ++ [st.row], .afterCR⟩
  else if c == '\n' then ⟨[], [], st.rows ++ [st.row], .startRecord⟩
  else startFieldStep st c

def csvStep (st : PState) (c : Char) : PState :=
  match st.mode with
  | .startRecord => recordStartStep st c
  | .startField =>
      if c == '\r' then ⟨[], [], st.rows ++ [st.row ++ [st.field]], .afterCR⟩
      else if c == '\n' then ⟨[], [], st.rows ++ [st.row ++ [st.field]], .startRecord⟩
      else startFieldStep st c
  | .inField =>
      if c == ',' then { st with field := [], row := st.row ++ [st.field], mode := .startField }
      else if c == '\r' then ⟨[], [], st.rows ++ [st.row ++ [st.field]], .afterCR⟩
      else if c == '\n' then ⟨[], [], st.rows ++ [st.row ++ [st.field]], .startRecord⟩
      else { st with field := st.field ++ [c] }
  | .inQuoted =>
      if c == '\"' then { st with mode := .quoteEnd }
      else { st with field := st.field ++ [c] }
  | .quoteEnd =>
      if c == '\"' then { st with field := st.field ++ ['\"'], mode := .inQuoted }
      else if c == ',' then { st with field := [], row := st.row ++ [st.field], mode := .startField }
      else if c == '\r' then ⟨[], [], st.rows ++ [st.row ++ [st.field]], .afterCR⟩
      else if c == '\n' then ⟨[], [], st.rows ++ [st.row ++ [st.field]], .startRecord⟩
      else { st with field := st.field ++ [c], mode := .inField }
  | .afterCR =>
      if c == '\n' then { st with mode := .startRecord }
      else recordStartStep { st with mode := .startRecord } c

def csvInit : PState := ⟨[], [], [], .startRecord⟩

def csvFinish (st : PState) : List (List (List Char)) :=
  match st.mode with
  | .startRecord => st.rows
  | .afterCR => st.rows
  | _ => st.rows ++ [st.row ++ [st.field]]

def parseCsv (s : String) : List (List String) :=
  (csvFinish (s.data.foldl csvStep csvInit)).map (fun r => r.map (fun f => (⟨f⟩ : String)))

/-! ### String and join helper lemmas -/

theorem strData_empty : ("" : String).data = [] := rfl

theorem strAppend_assoc (a b c : String) : a ++ b ++ c = a ++ (b ++ c) := by
  apply String.ext
  simp [String.data_append]

theorem strAppend_empty (s : String) : s ++ "" = s := by
  apply String.ext
  simp [String.data_append, strData_empty]

theorem strEmpty_append (s : String) : "" ++ s = s := by
  apply String.ext
  simp [String.data_append, strData_empty]

theorem joinStr_append (a b : List String) :
    joinStr (a ++ b) = joinStr a ++ joinStr b := by
  induction a with
  | nil => simp [joinStr, strEmpty_append]
  | cons x xs ih => simp [joinStr, ih, strAppend_assoc]

theorem joinStr_data (l : List String) :
    (joinStr l).data = (l.map String.data).flatten := by
  induction l with
  | nil => rfl
  | cons x xs ih => simp [joinStr, String.data_append, ih]

/-! ### Exporter helper lemmas -/

theorem stringifyId_keys (d : Doc) : (stringifyId d).keys = d.keys := by
  induction d with
  | nil => rfl
  | cons p rest ih =>
      simp only [stringifyId, Doc.keys, List.map_cons] at *
      rw [ih]
      congr 1
      split <;> rfl

theorem keysSub_refl (a : List String) : keysSub a a = true := by
  simp only [keysSub, List.all_eq_true]
  intro k hk
  simpa using hk

theorem hasExtra_of_keysSub {h : List String} {d : Doc}
    (hs : keysSub d.keys h = true) : hasExtra h d = false := by
  simp [hasExtra, hs]

theorem writerows_ok (h : List String) (l : List Doc)
    (hl : ∀ d ∈ l, hasExtra h d = false) :
    ∀ buf, writerows h buf l = .ok (buf ++ joinStr (l.map (rowOf h))) := by
  induction l with
  | nil => intro buf; simp [writerows, joinStr, strAppend_empty]
  | cons d ds ih =>
      intro buf
      have hd : hasExtra h d = false := hl d (by simp)
      have ihd := ih (fun x hx => hl x (by simp [hx]))
      simp [writerows, hd, ihd, joinStr, strAppend_assoc]

theorem streamLoop_err (pre : List (Except String Doc)) :
    ∀ (st : ExportState) (e : String) (rest : List (Except String Doc)),
    ∃ msg, streamLoop st (pre ++ .error e :: rest) = .error msg := by
  induction pre with
  | nil => intro st e rest; exact ⟨e, rfl⟩
  | cons x pre ih =>
      intro st e rest
      match x with
      | .error e' => exact ⟨e', rfl⟩
      | .ok d =>
          simp only [List.cons_append, streamLoop]
          cases hpd : procDoc st d with
          | error m => exact ⟨m, rfl⟩
          | ok st' => exact ih st' e rest

theorem stream_err (pre : List (Except String Doc)) (e : String)
    (rest : List (Except String Doc)) :
    stream_data_to_csv (pre ++ .error e :: rest) = ⟨"", 0, true, false⟩ := by
  obtain ⟨m, hm⟩ := streamLoop_err pre ⟨"", none, [], 0⟩ e rest
  simp [stream_data_to_csv, hm, finalizeStream]

theorem streamLoop_char (docs : List Doc) :
    ∀ (h : List String) (buf : String) (batch : List Doc) (count : Nat),
    (∀ d ∈ batch, hasExtra h d = false) →
    (∀ d ∈ docs, d.keys.contains "_id" = true) →
    (∀ d ∈ docs, hasExtra h (stringifyId d) = false) →
    finalizeStream (streamLoop ⟨buf, some h, batch, count⟩ (docs.map .ok)) =
      ⟨buf ++ joinStr ((batch ++ docs.map stringifyId).map (rowOf h)),
        count + docs.length, false, true⟩ := by
  induction docs with
  | nil =>
      intro h buf batch count hb _ _
      simp [streamLoop, finalizeStream, writerows_ok h batch hb buf]
  | cons d rest ih =>
      intro h buf batch count hb hid hsub
      have hidd : d.keys.contains "_id" = true := hid d (by simp)
      have hsubd : hasExtra h (stringifyId d) = false := hsub d (by simp)
      have hid' : ∀ x ∈ rest, x.keys.contains "_id" = true :=
        fun x hx => hid x (by simp [hx])
      have hsub' : ∀ x ∈ rest, hasExtra h (stringifyId x) = false :=
        fun x hx => hsub x (by simp [hx])
      have hbatch' : ∀ x ∈ batch ++ [stringifyId d], hasExtra h x = false := by
        intro x hx
        rcases List.mem_append.mp hx with hx | hx
        · exact hb x hx
        · simp only [List.mem_singleton] at hx; subst hx; exact hsubd
      have hlist : batch ++ stringifyId d :: List.map stringifyId rest
          = (batch ++ [stringifyId d]) ++ List.map stringifyId rest := by
        simp
      have hcnt : count + 1 + rest.length = count + (rest.length + 1) := by omega
      simp only [List.map_cons, streamLoop, procDoc, hidd, if_true]
      by_cases hlen : (batch ++ [stringifyId d]).length ≥ batchLimit
      · rw [writerows_ok h (batch ++ [stringifyId d]) hbatch' buf]
        rw [if_pos hlen]
        rw [ih h _ [] (count + 1) (by simp) hid' hsub']
        rw [hlist, List.map_append, joinStr_append, ← strAppend_assoc]
        simp only [List.nil_append, List.length_cons]
        rw [hcnt]
        simp [List.map_append, joinStr_append, strAppend_assoc, joinStr, strAppend_empty]
      · rw [if_neg hlen]
        rw [ih h buf (batch ++ [stringifyId d]) (count + 1) hbatch' hid' hsub']
        rw [hlist]
        simp only [List.length_cons]
        rw [hcnt]

/-- Successful run of the streaming exporter: the payload is the header row
derived from the first document followed by one CSV row per document, the
count is the number of documents, no error is shown and the cursor is
closed. -/
theorem stream_ok_char (d0 : Doc) (docs : List Doc)
    (hid : ∀ d ∈ d0 :: docs, d.keys.contains "_id" = true)
    (hsub : ∀ d ∈ docs, keysSub d.keys (Doc.keys d0) = true) :
    stream_data_to_csv ((d0 :: docs).map .ok) =
      ⟨joinStr ((Doc.keys d0 :: (d0 :: docs).map
          (fun d => (Doc.keys d0).map (Doc.cell (stringifyId d)))).map formatRow),
        docs.length + 1, false, true⟩ := by
  have hid0 : d0.keys.contains "_id" = true := hid d0 (by simp)
  have hb' : ∀ d ∈ [stringifyId d0],
      hasExtra (Doc.keys (stringifyId d0)) d = false := by
    intro x hx
    simp only [List.mem_singleton] at hx
    subst hx
    exact hasExtra_of_keysSub (keysSub_refl _)
  have hid' : ∀ d ∈ docs, d.keys.contains "_id" = true :=
    fun d hd => hid d (by simp [hd])
  have hsub' : ∀ d ∈ docs,
      hasExtra (Doc.keys (stringifyId d0)) (stringifyId d) = false := by
    intro d hd
    apply hasExtra_of_keysSub
    rw [stringifyId_keys, stringifyId_keys]
    exact hsub d hd
  simp only [stream_data_to_csv, List.map_cons, streamLoop, procDoc, hid0, if_true,
    List.nil_append]
  rw [if_neg (by simp [batchLimit])]
  rw [streamLoop_char docs (Doc.keys (stringifyId d0)) _ _ _ hb' hid' hsub']
  simp only [StreamResult.mk.injEq, stringifyId_keys, List.map_cons, joinStr,
    List.singleton_append, List.map_map, rowOf]
  refine ⟨?_, by omega, trivial, trivial⟩
  rw [strEmpty_append]
  congr 1
  simp [rowOf, Function.comp_def, List.nil_append]

theorem fetchRowsLoop_ok (h : List String) (l : List Doc)
    (hid : ∀ d ∈ l, d.keys.contains "_id" = true)
    (hsub : ∀ d ∈ l, hasExtra h (stringifyId d) = false) :
    ∀ buf, fetchRowsLoop h buf l =
      .ok (buf ++ joinStr (l.map (fun d => rowOf h (stringifyId d)))) := by
  induction l with
  | nil => intro buf; simp [fetchRowsLoop, joinStr, strAppend_empty]
  | cons d ds ih =>
      intro buf
      have hd : "_id" ∈ d.keys := by simpa using hid d (by simp)
      have hx := hsub d (by simp)
      have ihd := ih (fun x hxx => hid x (by simp [hxx])) (fun x hxx => hsub x (by simp [hxx]))
      simp [fetchRowsLoop, hd, hx, ihd, joinStr, strAppend_assoc]

/-! ### CSV round-trip lemmas -/

theorem quoted_run (cs : List Char) :
    ∀ (f : List Char) (row : List (List Char)) (rows : List (List (List Char))),
    List.foldl csvStep ⟨f, row, rows, .inQuoted⟩ (escapeL cs) =
      ⟨f ++ cs, row, rows, .inQuoted⟩ := by
  induction cs with
  | nil => intro f row rows; simp [escapeL]
  | cons c cs ih =>
      intro f row rows
      by_cases hc : c = '\"'
      · subst hc
        have he : escapeL ('\"' :: cs) = '\"' :: '\"' :: escapeL cs := by simp [escapeL]
        rw [he]
        simp only [List.foldl_cons]
        have s1 : csvStep ⟨f, row, rows, .inQuoted⟩ '\"' = ⟨f, row, rows, .quoteEnd⟩ := by
          simp [csvStep]
        have s2 : csvStep ⟨f, row, rows, .quoteEnd⟩ '\"' =
            ⟨f ++ ['\"'], row, rows, .inQuoted⟩ := by
          simp [csvStep]
        rw [s1, s2, ih]
        simp
      · have he : escapeL (c :: cs) = c :: escapeL cs := by simp [escapeL, hc]
        rw [he]
        simp only [List.foldl_cons]
        have s1 : csvStep ⟨f, row, rows, .inQuoted⟩ c = ⟨f ++ [c], row, rows, .inQuoted⟩ := by
          simp [csvStep, hc]
        rw [s1, ih]
        simp

theorem notSpecial_parts {c : Char} (h : isSpecialChar c = false) :
    (c == ',') = false ∧ (c == '\"') = false ∧ (c == '\r') = false ∧ (c == '\n') = false := by
  simp only [isSpecialChar, Bool.or_eq_false_iff] at h
  exact ⟨h.1.1.1, h.1.1.2, h.1.2, h.2⟩

theorem raw_run (cs : List Char) :
    ∀ (f : List Char) (row : List (List Char)) (rows : List (List (List Char))),
    (∀ c ∈ cs, isSpecialChar c = false) →
    List.foldl csvStep ⟨f, row, rows, .inField⟩ cs = ⟨f ++ cs, row, rows, .inField⟩ := by
  induction cs with
  | nil => intro f row rows _; simp
  | cons c cs ih =>
      intro f row rows hcs
      obtain ⟨h1, _, h3, h4⟩ := notSpecial_parts (hcs c (by simp))
      simp only [List.foldl_cons]
      have s1 : csvStep ⟨f, row, rows, .inField⟩ c = ⟨f ++ [c], row, rows, .inField⟩ := by
        simp [csvStep, h1, h3, h4]
      rw [s1, ih _ _ _ (fun x hx => hcs x (by simp [hx]))]
      simp

theorem start_step {m : CsvMode} (hm : m = .startRecord ∨ m = .startField)
    (row : List (List Char)) (rows : List (List (List Char))) {c : Char}
    (hr : (c == '\r') = false) (hn : (c == '\n') = false) :
    csvStep ⟨[], row, rows, m⟩ c = startFieldStep ⟨[], row, rows, m⟩ c := by
  rcases hm with hm | hm <;> subst hm <;> simp [csvStep, recordStartStep, hr, hn]

theorem cell_comma (f : List Char) {m : CsvMode} (hm : m = .startRecord ∨ m = .startField)
    (row : List (List Char)) (rows : List (List (List Char))) (rest : List Char) :
    List.foldl csvStep ⟨[], row, rows, m⟩ (quoteFieldL f ++ ',' :: rest) =
      List.foldl csvStep ⟨[], row ++ [f], rows, .startField⟩ rest := by
  by_cases hq : needsQuoteL f = true
  · have hqf : quoteFieldL f = '\"' :: (escapeL f ++ ['\"']) := by simp [quoteFieldL, hq]
    rw [hqf]
    simp only [List.cons_append, List.foldl_cons]
    rw [start_step hm row rows (by decide) (by decide)]
    have s0 : startFieldStep ⟨[], row, rows, m⟩ '\"' = ⟨[], row, rows, .inQuoted⟩ := by
      simp [startFieldStep]
    rw [s0, List.append_assoc, List.singleton_append, List.foldl_append, quoted_run]
    simp only [List.foldl_cons, List.nil_append]
    have s1 : csvStep ⟨f, row, rows, .inQuoted⟩ '\"' = ⟨f, row, rows, .quoteEnd⟩ := by
      simp [csvStep]
    have s2 : csvStep ⟨f, row, rows, .quoteEnd⟩ ',' =
        ⟨[], row ++ [f], rows, .startField⟩ := by
      simp [csvStep]
    rw [s1, s2]
  · have hq' : needsQuoteL f = false := by simpa using hq
    have hqf : quoteFieldL f = f := by simp [quoteFieldL, hq']
    rw [hqf]
    have hspec : ∀ c ∈ f, isSpecialChar c = false := by
      intro x hx
      by_contra hb
      have : needsQuoteL f = true := by
        simp only [needsQuoteL, List.any_eq_true]
        exact ⟨x, hx, by simpa using hb⟩
      simp [this] at hq'
    cases f with
    | nil =>
        simp only [List.nil_append, List.foldl_cons]
        rw [start_step hm row rows (by decide) (by decide)]
        have s0 : startFieldStep ⟨[], row, rows, m⟩ ',' =
            ⟨[], row ++ [[]], rows, .startField⟩ := by
          simp [startFieldStep]
        rw [s0]
    | cons c cs =>
        obtain ⟨h1, h2, h3, h4⟩ := notSpecial_parts (hspec c (by simp))
        simp only [List.cons_append, List.foldl_cons]
        rw [start_step hm row rows h3 h4]
        have s0 : startFieldStep ⟨[], row, rows, m⟩ c = ⟨[c], row, rows, .inField⟩ := by
          simp [startFieldStep, h1, h2]
        rw [s0, List.foldl_append, raw_run cs [c] row rows
              (fun x hx => hspec x (by simp [hx]))]
        simp only [List.foldl_cons]
        have s1 : csvStep ⟨[c] ++ cs, row, rows, .inField⟩ ',' =
            ⟨[], row ++ [[c] ++ cs], rows, .startField⟩ := by
          simp [csvStep]
        rw [s1]
        simp

theorem cell_crlf (f : List Char) {m : CsvMode} (hm : m = .startRecord ∨ m = .startField)
    (hok : m = .startField ∨ f ≠ [])
    (row : List (List Char)) (rows : List (List (List Char))) (rest : List Char) :
    List.foldl csvStep ⟨[], row, rows, m⟩ (quoteFieldL f ++ '\r' :: '\n' :: rest) =
      List.foldl csvStep ⟨[], [], rows ++ [row ++ [f]], .startRecord⟩ rest := by
  by_cases hq : needsQuoteL f = true
  · have hqf : quoteFieldL f = '\"' :: (escapeL f ++ ['\"']) := by simp [quoteFieldL, hq]
    rw [hqf]
    simp only [List.cons_append, List.foldl_cons]
    rw [start_step hm row rows (by decide) (by decide)]
    have s0 : startFieldStep ⟨[], row, rows, m⟩ '\"' = ⟨[], row, rows, .inQuoted⟩ := by
      simp [startFieldStep]
    rw [s0, List.append_assoc, List.singleton_append, List.foldl_append, quoted_run]
    simp only [List.foldl_cons, List.nil_append]
    have s1 : csvStep ⟨f, row, rows, .inQuoted⟩ '\"' = ⟨f, row, rows, .quoteEnd⟩ := by
      simp [csvStep]
    have s2 : csvStep ⟨f, row, rows, .quoteEnd⟩ '\r' =
        ⟨[], [], rows ++ [row ++ [f]], .afterCR⟩ := by
      simp [csvStep]
    have s3 : csvStep ⟨[], [], rows ++ [row ++ [f]], .afterCR⟩ '\n' =
        ⟨[], [], rows ++ [row ++ [f]], .startRecord⟩ := by
      simp [csvStep]
    rw [s1, s2, s3]
  · have hq' : needsQuoteL f = false := by simpa using hq
    have hqf : quoteFieldL f = f := by simp [quoteFieldL, hq']
    rw [hqf]
    have hspec : ∀ c ∈ f, isSpecialChar c = false := by
      intro x hx
      by_contra hb
      have : needsQuoteL f = true := by
        simp only [needsQuoteL, List.any_eq_true]
        exact ⟨x, hx, by simpa using hb⟩
      simp [this] at hq'
    cases f with
    | nil =>
        have hmf : m = CsvMode.startField := by
          rcases hok with hok | hok
          · exact hok
          · simp at hok
        subst hmf
        simp only [List.nil_append, List.foldl_cons]
        have s0 : csvStep ⟨[], row, rows, .startField⟩ '\r' =
            ⟨[], [], rows ++ [row ++ [[]]], .afterCR⟩ := by
          simp [csvStep]
        have s1 : csvStep ⟨[], [], rows ++ [row ++ [[]]], .afterCR⟩ '\n' =
            ⟨[], [], rows ++ [row ++ [[]]], .startRecord⟩ := by
          simp [csvStep]
        rw [s0, s1]
    | cons c cs =>
        obtain ⟨h1, h2, h3, h4⟩ := notSpecial_parts (hspec c (by simp))
        simp only [List.cons_append, List.foldl_cons]
        rw [start_step hm row rows h3 h4]
        have s0 : startFieldStep ⟨[], row, rows, m⟩ c = ⟨[c], row, rows, .inField⟩ := by
          simp [startFieldStep, h1, h2]
        rw [s0, List.foldl_append, raw_run cs [c] row rows
              (fun x hx => hspec x (by simp [hx]))]
        simp only [List.foldl_cons]
        have s1 : csvStep ⟨[c] ++ cs, row, rows, .inField⟩ '\r' =
            ⟨[], [], rows ++ [row ++ [[c] ++ cs]], .afterCR⟩ := by
          simp [csvStep]
        have s2 : csvStep ⟨[], [], rows ++ [row ++ [[c] ++ cs]], .afterCR⟩ '\n' =
            ⟨[], [], rows ++ [row ++ [[c] ++ cs]], .startRecord⟩ := by
          simp [csvStep]
        rw [s1, s2]
        simp

theorem row_run (cells : List (List Char)) :
    ∀ {m : CsvMode}, (m = .startRecord ∨ m = .startField) →
    (m = .startField ∨ cells ≠ [[]]) → cells ≠ [] →
    ∀ (row : List (List Char)) (rows : List (List (List Char))) (rest : List Char),
    List.foldl csvStep ⟨[], row, rows, m⟩ ((rowCoreL cells ++ ['\r', '\n']) ++ rest) =
      List.foldl csvStep ⟨[], [], rows ++ [row ++ cells], .startRecord⟩ rest := by
  induction cells with
  | nil => intro m _ _ hne; exact absurd rfl hne
  | cons f fs ih =>
      intro m hm hok _ row rows rest
      cases fs with
      | nil =>
          have hokf : m = CsvMode.startField ∨ f ≠ [] := by
            rcases hok with hok | hok
            · exact Or.inl hok
            · right; intro hf; exact hok (by rw [hf])
          have : rowCoreL [f] = quoteFieldL f := rfl
          rw [this, List.append_assoc]
          simpa using cell_crlf f hm hokf row rows rest
      | cons g gs =>
          have hstep : rowCoreL (f :: g :: gs) = quoteFieldL f ++ ',' :: rowCoreL (g :: gs) := rfl
          rw [hstep]
          have hassoc : (quoteFieldL f ++ ',' :: rowCoreL (g :: gs)) ++ ['\r', '\n'] ++ rest =
              quoteFieldL f ++ ',' :: ((rowCoreL (g :: gs) ++ ['\r', '\n']) ++ rest) := by
            simp
          rw [hassoc, cell_comma f hm row rows]
          rw [ih (Or.inr rfl) (Or.inl rfl) (by simp) (row ++ [f]) rows rest]
          simp

theorem formatRow_run (cells : List (List Char)) (hne : cells ≠ [])
    (rows : List (List (List Char))) (rest : List Char) :
    List.foldl csvStep ⟨[], [], rows, .startRecord⟩ (formatRowL cells ++ rest) =
      List.foldl csvStep ⟨[], [], rows ++ [cells], .startRecord⟩ rest := by
  by_cases hsp : cells = [[]]
  · subst hsp
    have : formatRowL [[]] = ['\"', '\"', '\r', '\n'] := rfl
    rw [this]
    simp only [List.cons_append, List.nil_append, List.foldl_cons]
    have s0 : csvStep ⟨[], [], rows, .startRecord⟩ '\"' = ⟨[], [], rows, .inQuoted⟩ := by
      simp [csvStep, recordStartStep, startFieldStep]
    have s1 : csvStep ⟨[], [], rows, .inQuoted⟩ '\"' = ⟨[], [], rows, .quoteEnd⟩ := by
      simp [csvStep]
    have s2 : csvStep ⟨[], [], rows, .quoteEnd⟩ '\r' =
        ⟨[], [], rows ++ [[] ++ [[]]], .afterCR⟩ := by
      simp [csvStep]
    have s3 : csvStep ⟨[], [], rows ++ [[] ++ [[]]], .afterCR⟩ '\n' =
        ⟨[], [], rows ++ [[] ++ [[]]], .startRecord⟩ := by
      simp [csvStep]
    rw [s0, s1, s2, s3]
    simp
  · have : formatRowL cells = rowCoreL cells ++ ['\r', '\n'] := by simp [formatRowL, hsp]
    rw [this]
    simpa using row_run cells (Or.inl rfl) (Or.inr hsp) hne [] rows rest

theorem rows_run (rowsL : List (List (List Char))) :
    (∀ r ∈ rowsL, r ≠ []) → ∀ (rows0 : List (List (List Char))),
    List.foldl csvStep ⟨[], [], rows0, .startRecord⟩ ((rowsL.map formatRowL).flatten) =
      ⟨[], [], rows0 ++ rowsL, .startRecord⟩ := by
  induction rowsL with
  | nil => intro _ rows0; simp
  | cons r rs ih =>
      intro hne rows0
      simp only [List.map_cons, List.flatten_cons]
      rw [formatRow_run r (hne r (by simp)) rows0]
      rw [ih (fun x hx => hne x (by simp [hx])) (rows0 ++ [r])]
      simp

theorem strMk_data (s : String) : (⟨s.data⟩ : String) = s := rfl

/-- Parsing the writer's output recovers exactly the written rows. -/
theorem parseCsv_write (rows : List (List String)) (hne : ∀ r ∈ rows, r ≠ []) :
    parseCsv (joinStr (rows.map formatRow)) = rows := by
  unfold parseCsv
  rw [joinStr_data]
  have hmm : (rows.map formatRow).map String.data =
      (rows.map (fun r => r.map String.data)).map formatRowL := by
    simp [List.map_map, Function.comp_def, formatRow]
  rw [hmm]
  have hne' : ∀ r ∈ rows.map (fun r => r.map String.data), r ≠ [] := by
    intro r hr
    obtain ⟨r0, hr0, hr0e⟩ := List.mem_map.mp hr
    subst hr0e
    simpa using hne r0 hr0
  rw [show csvInit = (⟨[], [], [], .startRecord⟩ : PState) from rfl]
  rw [rows_run _ hne' []]
  simp [csvFinish, List.map_map, Function.comp_def, strMk_data]

theorem cell_stringifyId (d : Doc) (v : Value) (h : Doc.get? d "_id" = some v) :
    Doc.cell (stringifyId d) "_id" = v.pyStr := by
  induction d with
  | nil => simp [Doc.get?] at h
  | cons p rest ih =>
      obtain ⟨k, w⟩ := p
      by_cases hk : k = "_id"
      · subst hk
        simp only [Doc.get?, beq_self_eq_true, if_true] at h
        cases h
        simp [stringifyId, Doc.cell, Doc.get?, Value.pyStr]
      · have hk' : (k == "_id") = false := by simpa using hk
        simp only [Doc.get?, hk', Bool.false_eq_true, if_false] at h
        simp only [stringifyId, List.map_cons, hk', Bool.false_eq_true, if_false]
        simp only [Doc.cell, Doc.get?, hk', Bool.false_eq_true, if_false]
        simpa [Doc.cell, stringifyId] using ih h

/-! ### Claim theorems -/

/-- C1: if the query execution or cursor iteration raises a store-level error
mid-stream, `stream_data_to_csv` aborts: it returns an empty payload and a
record count of zero, the error is surfaced (`st.error` runs), the caller
renders the no-data warning rather than a download — so no partial CSV
payload is ever presented as a successful complete file. -/
theorem c1_midstream_error_aborts (pre : List (Except String Doc)) (e : String)
    (rest : List (Except String Doc)) :
    stream_data_to_csv (pre ++ .error e :: rest) = ⟨"", 0, true, false⟩ ∧
    renderMain (stream_data_to_csv (pre ++ .error e :: rest)).count =
      .noDataWarning := by
  refine ⟨stream_err pre e rest, ?_⟩
  rw [stream_err pre e rest]
  rfl

/-- C2: for every pair of datetimes with `start < end`, `build_optimized_query`
produces a range query whose timestamp lower bound is the ISO-8601 form of the
start and whose upper bound is the ISO-8601 form of the end, and the store
range predicate on those bounds matches exactly the records whose timestamp
lies between them inclusively at both ends.  The builder is a plain function
of its inputs (the embedding is purely functional, as is the source, which
only constructs a dict). -/
theorem c2_query_bounds_inclusive (s e : PyDateTime) (ic : Bool)
    (h : PyDateTime.ltb s e = true) :
    (build_optimized_query s e ic).tsGte = s.isoformat ∧
    (build_optimized_query s e ic).tsLte = e.isoformat ∧
    (∀ d : Doc, tsMatches (build_optimized_query s e ic) d = true ↔
      ∃ t, Doc.get? d "timestamp" = some (.str t) ∧
        strLeb s.isoformat t = true ∧ strLeb t e.isoformat = true) := by
  refine ⟨rfl, rfl, ?_⟩
  intro d
  constructor
  · intro hm
    unfold tsMatches at hm
    cases hg : Doc.get? d "timestamp" with
    | none => rw [hg] at hm; simp at hm
    | some v =>
        cases v with
        | str t =>
            rw [hg] at hm
            simp only [Bool.and_eq_true] at hm
            exact ⟨t, rfl, hm.1, hm.2⟩
        | intV n => rw [hg] at hm; simp at hm
        | objectId hx => rw [hg] at hm; simp at hm
  · rintro ⟨t, hg, h1, h2⟩
    unfold tsMatches
    rw [hg]
    simp only [build_optimized_query] at *
    simp [h1, h2]

theorem c2_witness :
    PyDateTime.ltb ⟨2025, 1, 1, 0, 0, 0⟩ ⟨2025, 1, 2, 0, 0, 0⟩ = true ∧
    ((build_optimized_query ⟨2025, 1, 1, 0, 0, 0⟩ ⟨2025, 1, 2, 0, 0, 0⟩ false).tsGte =
        PyDateTime.isoformat ⟨2025, 1, 1, 0, 0, 0⟩ ∧
      (build_optimized_query ⟨2025, 1, 1, 0, 0, 0⟩ ⟨2025, 1, 2, 0, 0, 0⟩ false).tsLte =
        PyDateTime.isoformat ⟨2025, 1, 2, 0, 0, 0⟩ ∧
      (∀ d : Doc, tsMatches (build_optimized_query ⟨2025, 1, 1, 0, 0, 0⟩
          ⟨2025, 1, 2, 0, 0, 0⟩ false) d = true ↔
        ∃ t, Doc.get? d "timestamp" = some (.str t) ∧
          strLeb (PyDateTime.isoformat ⟨2025, 1, 1, 0, 0, 0⟩) t = true ∧
          strLeb t (PyDateTime.isoformat ⟨2025, 1, 2, 0, 0, 0⟩) = true)) :=
  ⟨by decide, c2_query_bounds_inclusive ⟨2025, 1, 1, 0, 0, 0⟩ ⟨2025, 1, 2, 0, 0, 0⟩
    false (by decide)⟩

/-- C3: among records inside the time window whose `Genset_Run_SS` value is
one of 0, 1, 2, 5, a check-mode query (`is_check = true`) matches the record
exactly when its status lies in the inclusive band [0, 2] — so 0, 1 and 2 are
selected and 5 is excluded. -/
theorem c3_check_mode_band (s e : PyDateTime) (d : Doc) (t : String) (v : Int)
    (ht : Doc.get? d "timestamp" = some (.str t))
    (h1 : strLeb (PyDateTime.isoformat s) t = true)
    (h2 : strLeb t (PyDateTime.isoformat e) = true)
    (hv : Doc.get? d "Genset_Run_SS" = some (.intV v))
    (hset : v = 0 ∨ v = 1 ∨ v = 2 ∨ v = 5) :
    (matchesQuery (build_optimized_query s e true) d = true ↔
      (v = 0 ∨ v = 1 ∨ v = 2)) := by
  unfold matchesQuery tsMatches statusMatches
  rw [ht, hv]
  simp only [build_optimized_query]
  simp [h1, h2]
  omega

theorem c3_witness :
    Doc.get? [("_id", Value.objectId "aa11"),
        ("timestamp", Value.str "2025-01-01T12:00:00"),
        ("Genset_Run_SS", Value.intV 5)] "timestamp" =
      some (.str "2025-01-01T12:00:00") ∧
    strLeb (PyDateTime.isoformat ⟨2025, 1, 1, 0, 0, 0⟩) "2025-01-01T12:00:00" = true ∧
    strLeb "2025-01-01T12:00:00" (PyDateTime.isoformat ⟨2025, 1, 2, 0, 0, 0⟩) = true ∧
    Doc.get? [("_id", Value.objectId "aa11"),
        ("timestamp", Value.str "2025-01-01T12:00:00"),
        ("Genset_Run_SS", Value.intV 5)] "Genset_Run_SS" = some (.intV 5) ∧
    ((5 : Int) = 0 ∨ (5 : Int) = 1 ∨ (5 : Int) = 2 ∨ (5 : Int) = 5) ∧
    (matchesQuery (build_optimized_query ⟨2025, 1, 1, 0, 0, 0⟩ ⟨2025, 1, 2, 0, 0, 0⟩ true)
        [("_id", Value.objectId "aa11"),
          ("timestamp", Value.str "2025-01-01T12:00:00"),
          ("Genset_Run_SS", Value.intV 5)] = true ↔
      ((5 : Int) = 0 ∨ (5 : Int) = 1 ∨ (5 : Int) = 2)) :=
  ⟨by decide, by decide, by decide, by decide, by decide,
    c3_check_mode_band ⟨2025, 1, 1, 0, 0, 0⟩ ⟨2025, 1, 2, 0, 0, 0⟩
      [("_id", Value.objectId "aa11"),
        ("timestamp", Value.str "2025-01-01T12:00:00"),
        ("Genset_Run_SS", Value.intV 5)] "2025-01-01T12:00:00" 5
      (by decide) (by decide) (by decide) (by decide) (by decide)⟩

/-- C4: evaluation of the exporter at a failing input.  The claim says the
cursor is closed on every exit path; in the source, `cursor.close()` sits
inside the `try` block after the loop with no `finally`, so when iteration
raises mid-stream the `except` branch returns without closing the cursor.
Success and empty-result runs do close it; the error run does not. -/
theorem c4_cursor_left_open_on_error :
    (stream_data_to_csv [.ok [("_id", Value.objectId "aa11"), ("x", Value.intV 1)],
        .error "AutoReconnect: connection lost"]).cursorClosed = false ∧
    (stream_data_to_csv
        [.ok [("_id", Value.objectId "aa11"), ("x", Value.intV 1)]]).cursorClosed = true ∧
    (stream_data_to_csv []).cursorClosed = true := by
  refine ⟨by decide, by decide, by decide⟩

/-- C5, counterexample: a second record carrying a field absent from the first
record's header makes the export fail (`DictWriter` raises on extra fields by
default), returning an empty payload and count 0 with the error shown — the
export does not drop the extra field and complete successfully as claimed. -/
theorem c5_counterexample :
    stream_data_to_csv
        [.ok [("_id", Value.objectId "aa11"), ("x", Value.str "1")],
          .ok [("_id", Value.objectId "bb22"), ("x", Value.str "2"), ("y", Value.str "3")]] =
      ⟨"", 0, true, false⟩ := by
  decide

/-- C5, amended: when later records' key sets stay inside the first record's
header, the export completes successfully — fields missing from a record
render as the empty cell (`Doc.cell` returns `""` for an absent key) — while
records with extra fields abort the export (see the counterexample). -/
theorem c5_amended_missing_renders_empty (d0 : Doc) (docs : List Doc)
    (hid : ∀ d ∈ d0 :: docs, d.keys.contains "_id" = true)
    (hsub : ∀ d ∈ docs, keysSub d.keys (Doc.keys d0) = true) :
    stream_data_to_csv ((d0 :: docs).map .ok) =
      ⟨joinStr ((Doc.keys d0 :: (d0 :: docs).map
          (fun d => (Doc.keys d0).map (Doc.cell (stringifyId d)))).map formatRow),
        docs.length + 1, false, true⟩ ∧
    (∀ (d : Doc) (k : String), Doc.get? d k = none → Doc.cell d k = "") := by
  refine ⟨stream_ok_char d0 docs hid hsub, ?_⟩
  intro d k hk
  simp [Doc.cell, hk]

def docHomA : Doc :=
  [("_id", Value.objectId "aa11"), ("timestamp", Value.str "T1"), ("x", Value.str "1")]

def docHomB : Doc :=
  [("_id", Value.objectId "bb22"), ("timestamp", Value.str "T2")]

theorem c5_witness :
    (∀ d ∈ docHomA :: [docHomB], (Doc.keys d).contains "_id" = true) ∧
    (∀ d ∈ [docHomB], keysSub (Doc.keys d) (Doc.keys docHomA) = true) ∧
    (stream_data_to_csv ((docHomA :: [docHomB]).map .ok) =
        ⟨joinStr ((Doc.keys docHomA :: (docHomA :: [docHomB]).map
            (fun d => (Doc.keys docHomA).map (Doc.cell (stringifyId d)))).map formatRow),
          [docHomB].length + 1, false, true⟩ ∧
      (∀ (d : Doc) (k : String), Doc.get? d k = none → Doc.cell d k = "")) :=
  ⟨by decide, by decide,
    c5_amended_missing_renders_empty docHomA [docHomB] (by decide) (by decide)⟩

/-- C6: evaluation of the exporter at the two failing inputs.  The claim says
an empty result and a store error are distinguishable by the caller; in the
source both paths return `("", 0)`, and `main` renders both as the
"No data found" warning — the returned results are identical. -/
theorem c6_empty_and_error_identical :
    (stream_data_to_csv []).payload =
      (stream_data_to_csv [.error "ServerSelectionTimeoutError"]).payload ∧
    (stream_data_to_csv []).count =
      (stream_data_to_csv [.error "ServerSelectionTimeoutError"]).count ∧
    renderMain (stream_data_to_csv []).count =
      renderMain (stream_data_to_csv [.error "ServerSelectionTimeoutError"]).count := by
  refine ⟨rfl, rfl, rfl⟩

/-- C7: whenever the end datetime is not strictly after the start datetime
(the end date precedes the start date, or the combined end datetime is not
after the combined start datetime), `main` reports a validation error and the
action performs no store access: no connection, no query construction, no
query execution. -/
theorem c7_validation_blocks_store_access (inp : UIInput) (is_check : Bool)
    (h : PyDate.ltb inp.end_date inp.start_date = true ∨
      PyDateTime.ltb (datetimeCombine inp.start_date inp.start_time)
        (datetimeCombine inp.end_date inp.end_time) = false) :
    (∃ msg, main_process inp is_check = [.showValidationError msg]) ∧
    UIEvent.connectStore ∉ main_process inp is_check ∧
    (∀ q, UIEvent.buildQuery q ∉ main_process inp is_check) ∧
    (∀ q, UIEvent.runExport q ∉ main_process inp is_check) := by
  by_cases hd : PyDate.ltb inp.end_date inp.start_date = true
  · refine ⟨⟨"End Date must be greater than or equal to Start Date.",
        by simp [main_process, hd]⟩, ?_, ?_, ?_⟩ <;>
      simp [main_process, hd]
  · have hd' : PyDate.ltb inp.end_date inp.start_date = false := by
      simpa using hd
    have hlt : PyDateTime.ltb (datetimeCombine inp.start_date inp.start_time)
        (datetimeCombine inp.end_date inp.end_time) = false := by
      rcases h with h | h
      · exact absurd h hd
      · exact h
    refine ⟨⟨"End Date-Time must be greater than Start Date-Time.",
        by simp [main_process, hd', hlt]⟩, ?_, ?_, ?_⟩ <;>
      simp [main_process, hd', hlt]

theorem c7_witness :
    (PyDate.ltb (⟨2025, 1, 1⟩ : PyDate) (⟨2025, 1, 1⟩ : PyDate) = true ∨
      PyDateTime.ltb (datetimeCombine ⟨2025, 1, 1⟩ ⟨9, 0, 0⟩)
        (datetimeCombine ⟨2025, 1, 1⟩ ⟨8, 0, 0⟩) = false) ∧
    ((∃ msg, main_process ⟨⟨2025, 1, 1⟩, ⟨9, 0, 0⟩, ⟨2025, 1, 1⟩, ⟨8, 0, 0⟩⟩ true =
        [.showValidationError msg]) ∧
      UIEvent.connectStore ∉
        main_process ⟨⟨2025, 1, 1⟩, ⟨9, 0, 0⟩, ⟨2025, 1, 1⟩, ⟨8, 0, 0⟩⟩ true ∧
      (∀ q, UIEvent.buildQuery q ∉
        main_process ⟨⟨2025, 1, 1⟩, ⟨9, 0, 0⟩, ⟨2025, 1, 1⟩, ⟨8, 0, 0⟩⟩ true) ∧
      (∀ q, UIEvent.runExport q ∉
        main_process ⟨⟨2025, 1, 1⟩, ⟨9, 0, 0⟩, ⟨2025, 1, 1⟩, ⟨8, 0, 0⟩⟩ true)) :=
  ⟨by decide,
    c7_validation_blocks_store_access ⟨⟨2025, 1, 1⟩, ⟨9, 0, 0⟩, ⟨2025, 1, 1⟩, ⟨8, 0, 0⟩⟩
      true (by decide)⟩

/-- C8: round-trip — on a successful export every iterated record appears as
exactly one CSV data row under the header derived from the first record, with
the identity field rendered as its string form; parsing the CSV back yields,
for every header field, exactly the cells the exporter rendered from the
records (the stringified documents), and the `_id` cell is the string form of
the record's native identity value. -/
theorem c8_export_roundtrip (d0 : Doc) (docs : List Doc)
    (hid : ∀ d ∈ d0 :: docs, (Doc.keys d).contains "_id" = true)
    (hsub : ∀ d ∈ docs, keysSub (Doc.keys d) (Doc.keys d0) = true) :
    parseCsv (stream_data_to_csv ((d0 :: docs).map .ok)).payload =
      Doc.keys d0 :: (d0 :: docs).map
        (fun d => (Doc.keys d0).map (Doc.cell (stringifyId d))) ∧
    (stream_data_to_csv ((d0 :: docs).map .ok)).count = docs.length + 1 ∧
    (∀ d ∈ d0 :: docs, ∀ v, Doc.get? d "_id" = some v →
      Doc.cell (stringifyId d) "_id" = v.pyStr) := by
  have hchar := stream_ok_char d0 docs hid hsub
  have hkeys : Doc.keys d0 ≠ [] := by
    have h0 := hid d0 (by simp)
    intro hk
    rw [hk] at h0
    simp at h0
  refine ⟨?_, by rw [hchar], fun d _ v hv => cell_stringifyId d v hv⟩
  rw [hchar]
  apply parseCsv_write
  intro r hr
  rcases List.mem_cons.mp hr with hr | hr
  · subst hr
    exact hkeys
  · obtain ⟨d, _, rfl⟩ := List.mem_map.mp hr
    intro hcon
    cases hk0 : Doc.keys d0 with
    | nil => exact hkeys hk0
    | cons a l => rw [hk0] at hcon; simp at hcon

theorem c8_witness :
    (∀ d ∈ docHomA :: [docHomB], (Doc.keys d).contains "_id" = true) ∧
    (∀ d ∈ [docHomB], keysSub (Doc.keys d) (Doc.keys docHomA) = true) ∧
    (parseCsv (stream_data_to_csv ((docHomA :: [docHomB]).map .ok)).payload =
        Doc.keys docHomA :: (docHomA :: [docHomB]).map
          (fun d => (Doc.keys docHomA).map (Doc.cell (stringifyId d))) ∧
      (stream_data_to_csv ((docHomA :: [docHomB]).map .ok)).count = [docHomB].length + 1 ∧
      (∀ d ∈ docHomA :: [docHomB], ∀ v, Doc.get? d "_id" = some v →
        Doc.cell (stringifyId d) "_id" = v.pyStr)) :=
  ⟨by decide, by decide, c8_export_roundtrip docHomA [docHomB] (by decide) (by decide)⟩

/-- C9: for a non-empty homogeneous document sequence (every document sharing
the first document's field set), the batched streaming exporter of
`Navy_Dashboard1.py` produces exactly the CSV text the row-by-row loop of
`Navy_Dashboard.py` produces on the same documents — batching changes no
observable output. -/
theorem c9_batched_equals_rowwise (d0 : Doc) (docs : List Doc)
    (hid : ∀ d ∈ d0 :: docs, (Doc.keys d).contains "_id" = true)
    (hhom : ∀ d ∈ d0 :: docs, Doc.keys d = Doc.keys d0) :
    fetch_export_csv (d0 :: docs) =
      some (.ok (stream_data_to_csv ((d0 :: docs).map .ok)).payload) := by
  have hsub : ∀ d ∈ docs, keysSub (Doc.keys d) (Doc.keys d0) = true := by
    intro d hd
    rw [hhom d (by simp [hd])]
    exact keysSub_refl _
  have hsub' : ∀ d ∈ d0 :: docs, hasExtra (Doc.keys d0) (stringifyId d) = false := by
    intro d hd
    apply hasExtra_of_keysSub
    rw [stringifyId_keys, hhom d hd]
    exact keysSub_refl _
  have hchar := stream_ok_char d0 docs hid hsub
  rw [hchar]
  simp only [fetch_export_csv]
  rw [fetchRowsLoop_ok (Doc.keys d0) (d0 :: docs) hid hsub' (formatRow (Doc.keys d0))]
  simp [joinStr, rowOf, List.map_map, Function.comp_def]

theorem c9_witness :
    (∀ d ∈ docHomA :: [docHomA], (Doc.keys d).contains "_id" = true) ∧
    (∀ d ∈ docHomA :: [docHomA], Doc.keys d = Doc.keys docHomA) ∧
    fetch_export_csv (docHomA :: [docHomA]) =
      some (.ok (stream_data_to_csv ((docHomA :: [docHomA]).map .ok)).payload) :=
  ⟨by decide, by decide, c9_batched_equals_rowwise docHomA [docHomA] (by decide) (by decide)⟩

/-- C10: a cursor yielding zero documents with no error makes
`stream_data_to_csv` return the empty string — no header row is emitted, as
the header is derived only on the first record — together with count 0 (and,
in this run, the cursor is closed and no error shown); that `(payload, count)`
pair coincides with what every error run returns. -/
theorem c10_zero_docs_empty_payload :
    stream_data_to_csv [] = ⟨"", 0, false, true⟩ ∧
    (∀ (pre rest : List (Except String Doc)) (e : String),
      (stream_data_to_csv (pre ++ .error e :: rest)).payload =
        (stream_data_to_csv []).payload ∧
      (stream_data_to_csv (pre ++ .error e :: rest)).count =
        (stream_data_to_csv []).count) := by
  refine ⟨rfl, ?_⟩
  intro pre rest e
  rw [stream_err pre e rest]
  exact ⟨rfl, rfl⟩
